import Mathlib

/-!
Verification development for the Render-Bot repository (src/bot.py).

Every definition below is a shallow embedding of a function of `src/bot.py`,
translated directly from the Python source.  Strings model Python strings,
`Nat` models the non-negative integers involved (times, cursors), association
lists model JSON/`dict` objects (Python dicts have unique keys; `lookupA` and
`setA` follow first-occurrence semantics, which coincides with dict semantics
on duplicate-free lists), and `Option`/sum-like outcome types model the
fallible paths of the code.
-/

/-- Association-list lookup, modelling Python `dict.get` (first occurrence). -/
def lookupA {α : Type} : List (String × α) → String → Option α
  | [], _ => none
  | (k, v) :: rest, key => if k = key then some v else lookupA rest key

/-- Association-list update, modelling Python `dict[key] = value`: an existing
key keeps its position, a new key is appended at the end (insertion order). -/
def setA {α : Type} : List (String × α) → String → α → List (String × α)
  | [], key, v => [(key, v)]
  | (k, w) :: rest, key, v =>
    if k = key then (key, v) :: rest else (k, w) :: setA rest key v

/-- Association-list removal, modelling Python `dict.pop(key, None)`.  On the
duplicate-free lists produced by JSON objects this removes exactly the entry
for `key`. -/
def eraseA {α : Type} : List (String × α) → String → List (String × α)
  | [], _ => []
  | (k0, v) :: rest, key =>
    if k0 = key then eraseA rest key else (k0, v) :: eraseA rest key

/-- The characters Python `str.strip()` removes (ASCII whitespace; the number
files hold phone-number lines, so ASCII is the relevant alphabet). -/
def isPyWhitespace (c : Char) : Bool :=
  c = ' ' || c = '\t' || c = '\n' || c = '\r' || c = '\x0b' || c = '\x0c'

/-- Python `str.strip()`: drop leading and trailing whitespace. -/
def pyStrip (s : String) : String :=
  ⟨((s.data.dropWhile isPyWhitespace).reverse.dropWhile isPyWhitespace).reverse⟩

/-- The per-user ephemeral context bag (`context.user_data` in bot.py),
restricted to the fields the dispense and submission flows use. -/
structure Ctx where
  next_action : Option String
  main_button_context : Option String
  file_submission_category : Option String
deriving DecidableEq, Repr

/-- Effect of `start(update, context)` on the user context: the pending state
is set to `None` and the whole context bag is cleared (bot.py lines 211-212). -/
def start_ctx (_c : Ctx) : Ctx := ⟨none, none, none⟩

/-- The constant `COOLDOWN_SECONDS` (bot.py line 63). -/
def COOLDOWN_SECONDS : Nat := 10

/-- The mutable state touched by `give_number`: the process-wide
`last_number_time` global and the persisted `number_progress` table of
`data.json` (category name → subcategory name → next line index). -/
structure NumberState where
  lastNumberTime : Nat
  progress : List (String × List (String × Nat))
deriving DecidableEq, Repr

/-- The cursor the code reads:
`data.get("number_progress", {}).get(main, {}).get(sub, 0)`. -/
def cursorOf (st : NumberState) (main sub : String) : Nat :=
  (lookupA ((lookupA st.progress main).getD []) sub).getD 0

/-- Result of one attempt to read the backing resource file
`uploads/{main}_{sub}.txt`: the file may be missing (`file_path.exists()`
false), raise during reading (the `except` branch), or yield its lines. -/
inductive ReadResult where
  | missing
  | failure
  | ok (lines : List String)
deriving DecidableEq, Repr

/-- Outcome of one `give_number` call, one constructor per reply branch. -/
inductive DispenseOutcome where
  | missingContext
  | cooldown
  | notReady
  | dispensed (number : String)
  | empty
  | readError
deriving DecidableEq, Repr

/-- Full result of a `give_number` call: the outcome, the user context after
the call, the persisted state after the call, and whether `save_data` ran. -/
structure DispenseResult where
  outcome : DispenseOutcome
  ctx : Ctx
  state : NumberState
  saved : Bool
deriving DecidableEq, Repr

/-- Shallow embedding of `give_number` (bot.py lines 296-368).
`currentTime` is `asyncio.get_event_loop().time()`, `file` the observation of
`uploads/{main}_{sub}.txt`.  The missing-context branch calls `start`; the
cooldown, missing-file, exhausted and read-error branches leave everything
unchanged; only the success branch persists the advanced cursor and updates
the process-wide timestamp. -/
def give_number (ctx : Ctx) (subButton : String) (currentTime : Nat)
    (file : ReadResult) (st : NumberState) : DispenseResult :=
  match ctx.main_button_context with
  | none => ⟨.missingContext, start_ctx ctx, st, false⟩
  | some mainButton =>
    if currentTime < st.lastNumberTime + COOLDOWN_SECONDS then
      ⟨.cooldown, ctx, st, false⟩
    else
      match file with
      | .missing => ⟨.notReady, ctx, st, false⟩
      | .failure => ⟨.readError, ctx, st, false⟩
      | .ok lines =>
        let line_index := cursorOf st mainButton subButton
        if h : line_index < lines.length then
          let number := pyStrip (lines.get ⟨line_index, h⟩)
          let subMap := (lookupA st.progress mainButton).getD []
          ⟨.dispensed number, ctx,
            ⟨currentTime,
             setA st.progress mainButton (setA subMap subButton (line_index + 1))⟩,
            true⟩
        else
          ⟨.empty, ctx, st, false⟩

/-- A sequence of `give_number` calls for one `(main, sub)` pair whose backing
file holds `lines`, issued at the given instants. -/
def runDispense (ctx : Ctx) (subButton : String) (lines : List String) :
    List Nat → NumberState → List DispenseOutcome × NumberState
  | [], st => ([], st)
  | t :: ts, st =>
    let r := give_number ctx subButton t (.ok lines) st
    let rest := runDispense ctx subButton lines ts r.state
    (r.outcome :: rest.1, rest.2)

/-- The instants are spaced beyond the cooldown window: the first is at least
`COOLDOWN_SECONDS` after `last`, and consecutive instants likewise. -/
def spaced : Nat → List Nat → Bool
  | _, [] => true
  | last, t :: ts =>
    if last + COOLDOWN_SECONDS ≤ t then spaced t ts else false

theorem spaced_mono {a b : Nat} (h : a ≤ b) :
    ∀ {ts : List Nat}, spaced b ts = true → spaced a ts = true := by
  intro ts
  cases ts with
  | nil => intro _; rfl
  | cons t ts =>
    intro hs
    simp only [spaced] at hs ⊢
    by_cases hbt : b + COOLDOWN_SECONDS ≤ t
    · rw [if_pos hbt] at hs
      rw [if_pos (by omega)]
      exact hs
    · rw [if_neg hbt] at hs
      exact absurd hs (by simp)

example :
    give_number ⟨some "awaiting_number_category", some "M", none⟩ "S" 15
      (.ok [" 111 ", "222"]) ⟨0, []⟩
    = ⟨.dispensed "111", ⟨some "awaiting_number_category", some "M", none⟩,
       ⟨15, [("M", [("S", 1)])]⟩, true⟩ := by decide

theorem lookupA_setA_self {α : Type} (l : List (String × α)) (k : String) (v : α) :
    lookupA (setA l k v) k = some v := by
  induction l with
  | nil => simp [setA, lookupA]
  | cons kv rest ih =>
    obtain ⟨k0, v0⟩ := kv
    by_cases h : k0 = k
    · simp [setA, h, lookupA]
    · simp [setA, h, lookupA, ih]

theorem lookupA_setA_ne {α : Type} (l : List (String × α)) (k k' : String) (v : α)
    (h : k ≠ k') : lookupA (setA l k v) k' = lookupA l k' := by
  induction l with
  | nil => simp [setA, lookupA, h]
  | cons kv rest ih =>
    obtain ⟨k0, v0⟩ := kv
    by_cases h0 : k0 = k
    · subst h0; simp [setA, lookupA, h]
    · simp [setA, h0, lookupA, ih]

theorem cursorOf_after_success (st : NumberState) (main sub : String) (t : Nat) :
    cursorOf
      ⟨t, setA st.progress main
            (setA ((lookupA st.progress main).getD []) sub (cursorOf st main sub + 1))⟩
      main sub
    = cursorOf st main sub + 1 := by
  simp only [cursorOf, lookupA_setA_self, Option.getD_some, lookupA_setA_self]

/-- The outcome sequence the source produces for successive calls starting at
cursor `k`: serve line `k`, `k+1`, … (stripped) until the file is exhausted,
then report exhaustion. -/
def expectedOutcomes (lines : List String) : Nat → Nat → List DispenseOutcome
  | _, 0 => []
  | k, n + 1 =>
    if h : k < lines.length then
      .dispensed (pyStrip (lines.get ⟨k, h⟩)) :: expectedOutcomes lines (k + 1) n
    else
      .empty :: expectedOutcomes lines k n

theorem expectedOutcomes_eq (lines : List String) :
    ∀ (n k : Nat),
      expectedOutcomes lines k n
        = ((lines.drop k).take n).map (fun l => DispenseOutcome.dispensed (pyStrip l))
          ++ List.replicate (n - (lines.length - k)) .empty := by
  intro n
  induction n with
  | zero => intro k; simp [expectedOutcomes]
  | succ n ih =>
    intro k
    by_cases h : k < lines.length
    · rw [expectedOutcomes, dif_pos h, ih (k + 1)]
      rw [List.drop_eq_getElem_cons h, List.take_succ_cons, List.map_cons]
      have hrep : n + 1 - (lines.length - k) = n - (lines.length - (k + 1)) := by omega
      rw [hrep]
      rfl
    · rw [expectedOutcomes, dif_neg h, ih k]
      have hd : lines.drop k = [] := List.drop_eq_nil_of_le (by omega)
      have hl : lines.length - k = 0 := by omega
      rw [hd, hl]
      simp [List.replicate_succ]

theorem runDispense_go (na fsc : Option String) (main subButton : String)
    (lines : List String) :
    ∀ (times : List Nat) (st : NumberState),
      spaced st.lastNumberTime times = true →
      (runDispense ⟨na, some main, fsc⟩ subButton lines times st).1
          = expectedOutcomes lines (cursorOf st main subButton) times.length
      ∧ cursorOf (runDispense ⟨na, some main, fsc⟩ subButton lines times st).2 main subButton
          = cursorOf st main subButton
            + min times.length (lines.length - cursorOf st main subButton) := by
  intro times
  induction times with
  | nil => intro st _; simp [runDispense, expectedOutcomes]
  | cons t ts ih =>
    intro st hsp
    simp only [spaced] at hsp
    by_cases hgap : st.lastNumberTime + COOLDOWN_SECONDS ≤ t
    · rw [if_pos hgap] at hsp
      have hnc : ¬ (t < st.lastNumberTime + COOLDOWN_SECONDS) := by omega
      by_cases hk : cursorOf st main subButton < lines.length
      · have hr :
            give_number ⟨na, some main, fsc⟩ subButton t (.ok lines) st
              = ⟨.dispensed (pyStrip (lines.get ⟨cursorOf st main subButton, hk⟩)),
                 ⟨na, some main, fsc⟩,
                 ⟨t, setA st.progress main
                       (setA ((lookupA st.progress main).getD []) subButton
                         (cursorOf st main subButton + 1))⟩, true⟩ := by
          simp only [give_number, if_neg hnc, dif_pos hk]
        obtain ⟨ih1, ih2⟩ := ih
          ⟨t, setA st.progress main
                (setA ((lookupA st.progress main).getD []) subButton
                  (cursorOf st main subButton + 1))⟩ hsp
        rw [cursorOf_after_success] at ih1 ih2
        constructor
        · simp only [runDispense, hr, ih1, List.length_cons]
          rw [expectedOutcomes, dif_pos hk]
        · simp only [runDispense, hr, ih2, List.length_cons]
          omega
      · have hr :
            give_number ⟨na, some main, fsc⟩ subButton t (.ok lines) st
              = ⟨.empty, ⟨na, some main, fsc⟩, st, false⟩ := by
          simp only [give_number, if_neg hnc, dif_neg hk]
        obtain ⟨ih1, ih2⟩ := ih st (spaced_mono (by omega) hsp)
        constructor
        · simp only [runDispense, hr, ih1, List.length_cons]
          rw [expectedOutcomes, dif_neg hk]
        · simp only [runDispense, hr, ih2, List.length_cons]
          omega
    · rw [if_neg hgap] at hsp
      exact absurd hsp (by simp)

/-- C1: for a fixed `(category, subcategory)` pair whose backing file has `L`
lines, a sequence of `N` dispense calls spaced beyond the cooldown window,
starting from cursor `0`, returns exactly the first `min N L` lines, in file
order, each exactly once and whitespace-stripped; every call after the `L`
successes (in particular the one issued right after them) returns the
exhaustion outcome `empty` (reply "all numbers … distributed") and the final
cursor is `min N L`, so the exhausted calls do not advance it. -/
theorem give_number_sequence_spec (na fsc : Option String) (main subButton : String)
    (lines : List String) (times : List Nat) (st : NumberState)
    (hcur : cursorOf st main subButton = 0)
    (hsp : spaced st.lastNumberTime times = true) :
    (runDispense ⟨na, some main, fsc⟩ subButton lines times st).1
      = (lines.take (min times.length lines.length)).map
          (fun l => DispenseOutcome.dispensed (pyStrip l))
        ++ List.replicate (times.length - lines.length) .empty
    ∧ cursorOf (runDispense ⟨na, some main, fsc⟩ subButton lines times st).2 main subButton
      = min times.length lines.length := by
  obtain ⟨h1, h2⟩ := runDispense_go na fsc main subButton lines times st hsp
  rw [hcur] at h1 h2
  constructor
  · rw [h1, expectedOutcomes_eq, List.drop_zero, Nat.sub_zero]
    have ht : lines.take times.length = lines.take (min times.length lines.length) :=
      List.take_eq_take.2 (by omega)
    rw [ht]
  · rw [h2]; omega

/-- Witness for C1: a 2-line file served over 3 spaced calls yields the two
stripped lines in order and then one exhaustion outcome, cursor ends at 2. -/
theorem give_number_sequence_spec_witness :
    (runDispense ⟨none, some "M", none⟩ "S" [" 111 ", "222\n"] [10, 20, 30] ⟨0, []⟩).1
      = [.dispensed "111", .dispensed "222", .empty]
    ∧ cursorOf (runDispense ⟨none, some "M", none⟩ "S" [" 111 ", "222\n"]
        [10, 20, 30] ⟨0, []⟩).2 "M" "S" = 2 := by
  have h := give_number_sequence_spec none none "M" "S" [" 111 ", "222\n"]
    [10, 20, 30] ⟨0, []⟩ (by decide) (by decide)
  exact ⟨h.1.trans (by decide), h.2.trans (by decide)⟩

/-- C2: a dispense call issued less than `COOLDOWN_SECONDS` after the
process-wide `last_number_time` — whatever the category, subcategory, file
contents or requester context — replies with the cooldown message and leaves
the context, the persisted state (hence every `number_progress` cursor) and
the timestamp untouched, without calling `save_data`; and the cooldown
timestamp changes only when a dispense succeeds, in which case it becomes the
time of that call. -/
theorem give_number_cooldown_spec (ctx : Ctx) (subButton : String) (t : Nat)
    (file : ReadResult) (st : NumberState) :
    (∀ m, ctx.main_button_context = some m →
      t < st.lastNumberTime + COOLDOWN_SECONDS →
      give_number ctx subButton t file st = ⟨.cooldown, ctx, st, false⟩)
    ∧ ((give_number ctx subButton t file st).state.lastNumberTime ≠ st.lastNumberTime →
        (∃ n, (give_number ctx subButton t file st).outcome = .dispensed n)
        ∧ (give_number ctx subButton t file st).state.lastNumberTime = t) := by
  constructor
  · intro m hm hlt
    simp only [give_number, hm, if_pos hlt]
  · intro hne
    match hmb : ctx.main_button_context with
    | none => simp only [give_number, hmb] at hne ⊢; exact absurd rfl hne
    | some mainButton =>
      simp only [give_number, hmb] at hne ⊢
      by_cases hlt : t < st.lastNumberTime + COOLDOWN_SECONDS
      · rw [if_pos hlt] at hne; exact absurd rfl hne
      · rw [if_neg hlt] at hne ⊢
        match file with
        | .missing => exact absurd rfl hne
        | .failure => exact absurd rfl hne
        | .ok lines =>
          simp only at hne ⊢
          by_cases hk : cursorOf st mainButton subButton < lines.length
          · rw [dif_pos hk] at hne ⊢
            exact ⟨⟨_, rfl⟩, rfl⟩
          · rw [dif_neg hk] at hne; exact absurd rfl hne

/-- Witness for C2: with the last success at time 0, a call at time 5 is
rejected with the cooldown outcome and changes nothing. -/
theorem give_number_cooldown_spec_witness :
    give_number ⟨some "awaiting_number_category", some "M", none⟩ "S" 5
        (.ok ["111"]) ⟨0, [("M", [("S", 0)])]⟩
      = ⟨.cooldown, ⟨some "awaiting_number_category", some "M", none⟩,
         ⟨0, [("M", [("S", 0)])]⟩, false⟩ :=
  (give_number_cooldown_spec ⟨some "awaiting_number_category", some "M", none⟩
    "S" 5 (.ok ["111"]) ⟨0, [("M", [("S", 0)])]⟩).1 "M" rfl (by decide)

/-- C10: dispense is atomic on every failure path: whenever the outcome is not
a successful dispense (missing context, cooldown, missing file, exhausted
file, or an exception while reading), the persisted state is exactly the state
before the call and `save_data` is not called; `save_data` runs exactly on the
success path. -/
theorem give_number_atomic_failure (ctx : Ctx) (subButton : String) (t : Nat)
    (file : ReadResult) (st : NumberState) :
    ((∀ n, (give_number ctx subButton t file st).outcome ≠ .dispensed n) →
      (give_number ctx subButton t file st).state = st
      ∧ (give_number ctx subButton t file st).saved = false)
    ∧ ((give_number ctx subButton t file st).saved = true ↔
        ∃ n, (give_number ctx subButton t file st).outcome = .dispensed n) := by
  match hmb : ctx.main_button_context with
  | none => simp [give_number, hmb]
  | some mainButton =>
    by_cases hlt : t < st.lastNumberTime + COOLDOWN_SECONDS
    · simp [give_number, hmb, hlt]
    · match file with
      | .missing => simp [give_number, hmb, hlt]
      | .failure => simp [give_number, hmb, hlt]
      | .ok lines =>
        by_cases hk : cursorOf st mainButton subButton < lines.length
        · simp only [give_number, hmb, if_neg hlt, dif_pos hk]
          exact ⟨fun hno => absurd rfl (hno _), by simp⟩
        · simp [give_number, hmb, hlt, hk]

/-- Witness for C10: an exhausted file (cursor 1, one line) leaves the store
untouched and unsaved. -/
theorem give_number_atomic_failure_witness :
    (give_number ⟨none, some "M", none⟩ "S" 50 (.ok ["111"])
        ⟨0, [("M", [("S", 1)])]⟩).state = ⟨0, [("M", [("S", 1)])]⟩
    ∧ (give_number ⟨none, some "M", none⟩ "S" 50 (.ok ["111"])
        ⟨0, [("M", [("S", 1)])]⟩).saved = false :=
  (give_number_atomic_failure ⟨none, some "M", none⟩ "S" 50 (.ok ["111"])
    ⟨0, [("M", [("S", 1)])]⟩).1 (by
      have he : (give_number ⟨none, some "M", none⟩ "S" 50 (.ok ["111"])
          ⟨0, [("M", [("S", 1)])]⟩).outcome = .empty := by decide
      intro n h
      rw [he] at h
      exact DispenseOutcome.noConfusion h)

/-- The normalization in `is_valid_2fa_secret` and `generate_totp`
(bot.py lines 551, 561): `secret.replace(" ", "").upper()` — all space
characters removed, then uppercased. -/
def normalize_2fa (s : String) : String :=
  ⟨(s.data.filter (fun c => c ≠ ' ')).map Char.toUpper⟩

/-- Membership in the character class `[A-Z2-7]` of the validation regex. -/
def isBase32Char (c : Char) : Bool :=
  ('A' ≤ c && c ≤ 'Z') || ('2' ≤ c && c ≤ '7')

/-- In Python, the `$` anchor of `re.match(r'^[A-Z2-7]+$', s)` matches at the
end of the string or just before one newline at the end of the string; this is
that optionally-discarded trailing newline. -/
def stripTrailingNewline (s : String) : String :=
  if s.data.getLast? = some '\n' then ⟨s.data.dropLast⟩ else s

/-- Faithful semantics of `re.match(r'^[A-Z2-7]+$', s)` as a Boolean: since
`'\n'` is not in the class, the pattern matches exactly when the string minus
an optional single trailing newline is non-empty and lies in the class. -/
def pyFullmatchBase32 (s : String) : Bool :=
  let core := stripTrailingNewline s
  (!core.data.isEmpty) && core.data.all isBase32Char

/-- Shallow embedding of `is_valid_2fa_secret` (bot.py lines 558-568): clean
the secret, require length at least 16, then match the base32 regex.  The
`try/except` cannot fire for string input and is dropped. -/
def is_valid_2fa_secret (secret : String) : Bool :=
  let cleaned := normalize_2fa secret
  if cleaned.length < 16 then false
  else pyFullmatchBase32 cleaned

/-- The acceptance condition exactly as the claim words it ("normalization has
length at least 16 and consists only of characters in A-Z and 2-7"), for
comparison with the code. -/
def claim_valid_2fa (secret : String) : Bool :=
  let cleaned := normalize_2fa secret
  if 16 ≤ cleaned.length then cleaned.data.all isBase32Char else false

/-- Counterexample for C6 as stated: the 16-character input of 15 base32
letters followed by one newline is accepted by the code (Python `$` matches
before a trailing newline, and the newline still counts towards `len`), yet
its normalization neither consists only of `A-Z2-7` characters nor has 16
characters of them, so the claim's acceptance condition rejects it. -/
theorem is_valid_2fa_secret_counterexample :
    is_valid_2fa_secret "ABCDEFGHIJKLMNO\n" = true
    ∧ claim_valid_2fa "ABCDEFGHIJKLMNO\n" = false := by decide

/-- C6 (amended): `is_valid_2fa_secret` accepts exactly the strings whose
normalization (spaces removed, then uppercased — normalization happens before
both checks) has length at least 16 and, after discarding at most one trailing
newline, is non-empty and consists only of characters in `A-Z2-7`.  Every
string the original claim accepts is still accepted; the only extra accepted
inputs are those whose normalization ends in exactly one newline. -/
theorem is_valid_2fa_secret_spec (secret : String) :
    (is_valid_2fa_secret secret = true ↔
      (16 ≤ (normalize_2fa secret).length
       ∧ (stripTrailingNewline (normalize_2fa secret)).data ≠ []
       ∧ ∀ c ∈ (stripTrailingNewline (normalize_2fa secret)).data, isBase32Char c = true))
    ∧ (claim_valid_2fa secret = true → is_valid_2fa_secret secret = true) := by
  constructor
  · unfold is_valid_2fa_secret
    by_cases hlen : (normalize_2fa secret).length < 16
    · simp only [if_pos hlen]
      constructor
      · intro h
        exact absurd h (by simp)
      · rintro ⟨h16, -⟩
        omega
    · simp only [if_neg hlen, pyFullmatchBase32, Bool.and_eq_true, Bool.not_eq_true',
        List.isEmpty_eq_false, List.all_eq_true]
      constructor
      · rintro ⟨h1, h2⟩
        exact ⟨by omega, h1, h2⟩
      · rintro ⟨-, h1, h2⟩
        exact ⟨h1, h2⟩
  · intro h
    unfold claim_valid_2fa at h
    by_cases hlen : 16 ≤ (normalize_2fa secret).length
    · rw [if_pos hlen] at h
      have hall : ∀ c ∈ (normalize_2fa secret).data, isBase32Char c = true :=
        List.all_eq_true.1 h
      have hlast : ¬ (normalize_2fa secret).data.getLast? = some '\n' := by
        intro hl
        have hmem : '\n' ∈ (normalize_2fa secret).data :=
          List.mem_of_getLast?_eq_some hl
        exact absurd (hall _ hmem) (by decide)
      unfold is_valid_2fa_secret pyFullmatchBase32 stripTrailingNewline
      rw [if_neg (by omega), if_neg hlast]
      simp only [Bool.and_eq_true, Bool.not_eq_true', List.isEmpty_eq_false,
        List.all_eq_true]
      refine ⟨?_, hall⟩
      have : 0 < (normalize_2fa secret).data.length := by
        have hle : (normalize_2fa secret).length = (normalize_2fa secret).data.length := rfl
        omega
      exact List.length_pos.1 this
    · rw [if_neg hlen] at h
      exact absurd h (by simp)

/-- Witness for C6 (amended): a spaced lowercase genuine base32 secret is
accepted. -/
theorem is_valid_2fa_secret_spec_witness :
    is_valid_2fa_secret "bk5v tvq7 d2rb aaaa" = true :=
  (is_valid_2fa_secret_spec "bk5v tvq7 d2rb aaaa").2 (by decide)

/-- JSON values as `json.load` produces them (numbers collapsed to `Int`;
no numeric content matters to `load_data`). -/
inductive Json where
  | null
  | bool (b : Bool)
  | num (n : Int)
  | str (s : String)
  | arr (items : List Json)
  | obj (fields : List (String × Json))

/-- The `default_data` dict of `load_data` (bot.py lines 78-91). -/
def default_data : List (String × Json) :=
  [("buttons", .arr []),
   ("users", .obj []),
   ("number_progress", .obj []),
   ("blacklist", .arr []),
   ("user_2fa_secrets", .obj []),
   ("otp_group_link", .str "https://t.me/+p2ppOgkSosNhZGI1"),
   ("file_submission_buttons", .arr []),
   ("delivery_schedule",
    .obj [("time", .null), ("timezone", .str "Asia/Dhaka"),
          ("job_id", .str "daily_merge_job")])]

/-- The test `isinstance(value, type(default_value))` on JSON values: same constructor
class.  (Python's bool-is-int subtlety cannot fire: every top-level default is
a list, dict or str.) -/
def sameType : Json → Json → Bool
  | .null, .null => true
  | .bool _, .bool _ => true
  | .num _, .num _ => true
  | .str _, .str _ => true
  | .arr _, .arr _ => true
  | .obj _, .obj _ => true
  | _, _ => false

/-- The per-key test of the healing loop:
`key in data and isinstance(data.get(key), type(default_value))`. -/
def keyOk (fields : List (String × Json)) (kv : String × Json) : Bool :=
  match lookupA fields kv.1 with
  | some v => sameType v kv.2
  | none => false

/-- One iteration of `for key, default_value in default_data.items()`
(bot.py lines 105-112): a missing or wrong-typed key is reset to its default
and the `fixed` flag is raised. -/
def fixKeyStep (acc : List (String × Json) × Bool) (kv : String × Json) :
    List (String × Json) × Bool :=
  if keyOk acc.1 kv then acc else (setA acc.1 kv.1 kv.2, true)

/-- The whole top-level healing loop. -/
def fixTopLevel (fields : List (String × Json)) : List (String × Json) × Bool :=
  default_data.foldl fixKeyStep (fields, false)

/-- One iteration of the legacy-buttons upgrade loop (bot.py lines 115-128):
a bare string becomes the structured dict; a dict with a `name` key gets a
missing or wrong-typed `sub_buttons` replaced by `[]`; anything else is
dropped from the list (`none`), always raising the flag.  Returns the kept
item and whether it was modified. -/
def upgradeButton : Json → Option (Json × Bool)
  | .str s => some (.obj [("name", .str s), ("sub_buttons", .arr [])], true)
  | .obj fs =>
    if (lookupA fs "name").isSome then
      match lookupA fs "sub_buttons" with
      | some (.arr _) => some (.obj fs, false)
      | some _ => some (.obj (setA fs "sub_buttons" (.arr [])), true)
      | none => some (.obj (setA fs "sub_buttons" (.arr [])), true)
    else none
  | _ => none

def fixButtonsStep (acc : List Json × Bool) (item : Json) : List Json × Bool :=
  match upgradeButton item with
  | some (j, f) => (acc.1 ++ [j], acc.2 || f)
  | none => (acc.1, true)

/-- The rebuilt `new_buttons` list with the accumulated `fixed` flag. -/
def fixButtons (items : List Json) : List Json × Bool :=
  items.foldl fixButtonsStep ([], false)

/-- The healing applied to a parsed top-level object: key fixing, then the
buttons upgrade (whose `isinstance(..., list)` guard always holds after key
fixing, but is kept).  Returns the healed object and whether `save_data` runs
(`fixed`). -/
def heal_document (fields : List (String × Json)) : List (String × Json) × Bool :=
  match lookupA (fixTopLevel fields).1 "buttons" with
  | some (.arr items) =>
    (setA (fixTopLevel fields).1 "buttons" (.arr (fixButtons items).1),
     (fixTopLevel fields).2 || (fixButtons items).2)
  | _ => ((fixTopLevel fields).1, (fixTopLevel fields).2)

/-- Shallow embedding of `load_data` (bot.py lines 74-140) on the parse result
of `data.json`: `none` models a missing, empty or unparsable file (the
`JSONDecodeError` and not-exists branches), which is replaced by the defaults
and saved.  A parsed object is healed, and saved exactly when a fix happened.
A parsed non-object value crashes: the loop immediately raises an uncaught
`TypeError` (`key not in data` on an int, `data[key] = ...` on a list or str),
modelled as `none`. -/
def load_data : Option Json → Option (Json × Bool)
  | none => some (.obj default_data, true)
  | some (.obj fields) => some (.obj (heal_document fields).1, (heal_document fields).2)
  | some _ => none

/-- The structured shape the upgrade produces: an object with a `name` key
and a list-valued `sub_buttons` key. -/
def structuredButton (j : Json) : Prop :=
  ∃ fs, j = Json.obj fs ∧ (lookupA fs "name").isSome = true
    ∧ ∃ l, lookupA fs "sub_buttons" = some (Json.arr l)

theorem sameType_refl (j : Json) : sameType j j = true := by cases j <;> rfl

theorem setA_lookup_id {α : Type} (l : List (String × α)) (k : String) (v : α)
    (h : lookupA l k = some v) : setA l k v = l := by
  induction l with
  | nil => exact Option.noConfusion h
  | cons kv rest ih =>
    obtain ⟨k0, v0⟩ := kv
    by_cases h0 : k0 = k
    · subst h0
      simp only [lookupA, if_true] at h
      have hv : v0 = v := Option.some.inj h
      simp [setA, hv]
    · simp only [lookupA, if_neg h0] at h
      simp [setA, h0, ih h]

theorem fixKeyStep_lookup_other (acc : List (String × Json) × Bool)
    (kv : String × Json) (k : String) (h : k ≠ kv.1) :
    lookupA (fixKeyStep acc kv).1 k = lookupA acc.1 k := by
  unfold fixKeyStep
  by_cases hok : keyOk acc.1 kv = true
  · rw [if_pos hok]
  · rw [if_neg hok]
    exact lookupA_setA_ne _ _ _ _ (Ne.symm h)

theorem fixKeyStep_self (acc : List (String × Json) × Bool) (kv : String × Json) :
    ∃ v, lookupA (fixKeyStep acc kv).1 kv.1 = some v ∧ sameType v kv.2 = true
      ∧ (keyOk acc.1 kv = false → v = kv.2)
      ∧ (∀ w, lookupA acc.1 kv.1 = some w → sameType w kv.2 = true → v = w) := by
  unfold fixKeyStep
  by_cases hok : keyOk acc.1 kv = true
  · rw [if_pos hok]
    unfold keyOk at hok
    cases hl : lookupA acc.1 kv.1 with
    | none => rw [hl] at hok; exact Bool.noConfusion hok
    | some v =>
      rw [hl] at hok
      have hok2 : sameType v kv.2 = true := hok
      refine ⟨v, rfl, hok2, ?_, ?_⟩
      · intro hf
        unfold keyOk at hf
        rw [hl] at hf
        have hf2 : sameType v kv.2 = false := hf
        rw [hf2] at hok2
        exact Bool.noConfusion hok2
      · intro w hw _
        exact Option.some.inj hw
  · rw [if_neg hok]
    refine ⟨kv.2, lookupA_setA_self _ _ _, sameType_refl _, fun _ => rfl, ?_⟩
    intro w hw hsw
    unfold keyOk at hok
    rw [hw] at hok
    exact absurd hsw hok

theorem foldl_fixKey_lookup_other (ds : List (String × Json)) :
    ∀ (acc : List (String × Json) × Bool) (k : String), (∀ kv ∈ ds, k ≠ kv.1) →
      lookupA (ds.foldl fixKeyStep acc).1 k = lookupA acc.1 k := by
  induction ds with
  | nil => intro acc k _; rfl
  | cons d ds ih =>
    intro acc k hk
    rw [List.foldl_cons, ih _ k (fun kv h2 => hk kv (List.mem_cons_of_mem _ h2))]
    exact fixKeyStep_lookup_other acc d k (hk d (List.mem_cons_self _ _))

theorem foldl_fixKey_good (ds : List (String × Json)) :
    (ds.map Prod.fst).Nodup →
    ∀ (acc : List (String × Json) × Bool) (kv : String × Json), kv ∈ ds →
      ∃ v, lookupA (ds.foldl fixKeyStep acc).1 kv.1 = some v ∧ sameType v kv.2 = true
        ∧ (keyOk acc.1 kv = false → v = kv.2)
        ∧ (∀ w, lookupA acc.1 kv.1 = some w → sameType w kv.2 = true → v = w) := by
  induction ds with
  | nil => intro _ acc kv h; cases h
  | cons d ds ih =>
    intro hnd acc kv hkv
    have hhead : d.1 ∉ ds.map Prod.fst := (List.nodup_cons.1 hnd).1
    have hnd2 : (ds.map Prod.fst).Nodup := (List.nodup_cons.1 hnd).2
    rcases List.mem_cons.1 hkv with rfl | hmem
    · obtain ⟨v, hv, hs, hreset, hpres⟩ := fixKeyStep_self acc kv
      rw [List.foldl_cons,
        foldl_fixKey_lookup_other ds _ kv.1
          (fun kv2 h2 => fun he => hhead (he ▸ List.mem_map_of_mem Prod.fst h2))]
      exact ⟨v, hv, hs, hreset, hpres⟩
    · have hdne : kv.1 ≠ d.1 := by
        intro he
        exact hhead (he ▸ List.mem_map_of_mem Prod.fst hmem)
      rw [List.foldl_cons]
      obtain ⟨v, hv, hs, hreset, hpres⟩ := ih hnd2 (fixKeyStep acc d) kv hmem
      have hlo : lookupA (fixKeyStep acc d).1 kv.1 = lookupA acc.1 kv.1 :=
        fixKeyStep_lookup_other acc d kv.1 hdne
      refine ⟨v, hv, hs, ?_, ?_⟩
      · intro h0
        apply hreset
        unfold keyOk
        rw [hlo]
        exact h0
      · intro w hw hsw
        exact hpres w (hlo.trans hw) hsw

theorem foldl_fixKey_id (ds : List (String × Json)) :
    ∀ (acc : List (String × Json) × Bool), (∀ kv ∈ ds, keyOk acc.1 kv = true) →
      ds.foldl fixKeyStep acc = acc := by
  induction ds with
  | nil => intro acc _; rfl
  | cons d ds ih =>
    intro acc h
    have hstep : fixKeyStep acc d = acc := by
      unfold fixKeyStep
      rw [if_pos (h d (List.mem_cons_self _ _))]
    rw [List.foldl_cons, hstep]
    exact ih acc (fun kv h2 => h kv (List.mem_cons_of_mem _ h2))

theorem upgradeButton_setA (fs : List (String × Json))
    (hn : (lookupA fs "name").isSome = true) :
    upgradeButton (.obj (setA fs "sub_buttons" (.arr [])))
      = some (.obj (setA fs "sub_buttons" (.arr [])), false) := by
  simp only [upgradeButton]
  rw [lookupA_setA_ne fs "sub_buttons" "name" _ (by decide), lookupA_setA_self, if_pos hn]

theorem upgradeButton_fixpoint (item j : Json) (f : Bool)
    (h : upgradeButton item = some (j, f)) :
    upgradeButton j = some (j, false) := by
  match item with
  | .null => exact Option.noConfusion h
  | .bool _ => exact Option.noConfusion h
  | .num _ => exact Option.noConfusion h
  | .arr _ => exact Option.noConfusion h
  | .str s =>
    have hj : Json.obj [("name", Json.str s), ("sub_buttons", Json.arr [])] = j :=
      congrArg Prod.fst (Option.some.inj h)
    subst hj
    rfl
  | .obj fs =>
    simp only [upgradeButton] at h
    by_cases hn : (lookupA fs "name").isSome = true
    · rw [if_pos hn] at h
      rcases hsb : lookupA fs "sub_buttons" with _ | v
      · rw [hsb] at h
        have hj : Json.obj (setA fs "sub_buttons" (.arr [])) = j :=
          congrArg Prod.fst (Option.some.inj h)
        subst hj
        exact upgradeButton_setA fs hn
      · rw [hsb] at h
        cases v <;>
          try (have hj : Json.obj (setA fs "sub_buttons" (.arr [])) = j :=
                 congrArg Prod.fst (Option.some.inj h);
               subst hj;
               exact upgradeButton_setA fs hn)
        rename_i l
        have hj : Json.obj fs = j := congrArg Prod.fst (Option.some.inj h)
        subst hj
        simp only [upgradeButton]
        rw [if_pos hn, hsb]
    · rw [if_neg hn] at h
      exact Option.noConfusion h

theorem structuredButton_of_fixpoint (j : Json)
    (h : upgradeButton j = some (j, false)) : structuredButton j := by
  match j with
  | .null => exact Option.noConfusion h
  | .bool _ => exact Option.noConfusion h
  | .num _ => exact Option.noConfusion h
  | .arr _ => exact Option.noConfusion h
  | .str s => exact Bool.noConfusion (congrArg Prod.snd (Option.some.inj h))
  | .obj fs =>
    simp only [upgradeButton] at h
    by_cases hn : (lookupA fs "name").isSome = true
    · rw [if_pos hn] at h
      rcases hsb : lookupA fs "sub_buttons" with _ | v
      · rw [hsb] at h
        exact Bool.noConfusion (congrArg Prod.snd (Option.some.inj h))
      · rw [hsb] at h
        cases v <;>
          try exact Bool.noConfusion (congrArg Prod.snd (Option.some.inj h))
        rename_i l
        exact ⟨fs, rfl, hn, l, hsb⟩
    · rw [if_neg hn] at h
      exact Option.noConfusion h

theorem fixButtons_foldl_acc (items : List Json) :
    ∀ (acc : List Json × Bool) (j : Json), j ∈ acc.1 →
      j ∈ (items.foldl fixButtonsStep acc).1 := by
  induction items with
  | nil => intro acc j hj; exact hj
  | cons it its ih =>
    intro acc j hj
    rw [List.foldl_cons]
    apply ih
    unfold fixButtonsStep
    rcases hup : upgradeButton it with _ | ⟨j2, f2⟩
    · exact hj
    · exact List.mem_append_left _ hj

theorem fixButtons_foldl_mem (items : List Json) :
    ∀ (acc : List Json × Bool) (j : Json), j ∈ (items.foldl fixButtonsStep acc).1 →
      j ∈ acc.1 ∨ ∃ item ∈ items, ∃ f, upgradeButton item = some (j, f) := by
  induction items with
  | nil => intro acc j hj; exact Or.inl hj
  | cons it its ih =>
    intro acc j hj
    rw [List.foldl_cons] at hj
    rcases ih (fixButtonsStep acc it) j hj with hacc | ⟨item, hit, f, hup⟩
    · unfold fixButtonsStep at hacc
      rcases hup : upgradeButton it with _ | ⟨j2, f2⟩
      · rw [hup] at hacc
        exact Or.inl hacc
      · rw [hup] at hacc
        rcases List.mem_append.1 hacc with h1 | h2
        · exact Or.inl h1
        · have : j = j2 := by simpa using h2
          subst this
          exact Or.inr ⟨it, List.mem_cons_self _ _, f2, hup⟩
    · exact Or.inr ⟨item, List.mem_cons_of_mem _ hit, f, hup⟩

theorem fixButtons_foldl_legacy (items : List Json) :
    ∀ (acc : List Json × Bool) (s : String), Json.str s ∈ items →
      Json.obj [("name", Json.str s), ("sub_buttons", Json.arr [])]
        ∈ (items.foldl fixButtonsStep acc).1 := by
  induction items with
  | nil => intro acc s hs; cases hs
  | cons it its ih =>
    intro acc s hs
    rw [List.foldl_cons]
    rcases List.mem_cons.1 hs with heq | hs2
    · apply fixButtons_foldl_acc
      rw [← heq]
      unfold fixButtonsStep upgradeButton
      simp
    · exact ih _ s hs2

theorem fixButtons_foldl_id (items : List Json)
    (h : ∀ j ∈ items, upgradeButton j = some (j, false)) :
    ∀ (acc : List Json × Bool), items.foldl fixButtonsStep acc = (acc.1 ++ items, acc.2) := by
  induction items with
  | nil => intro acc; simp
  | cons it its ih =>
    intro acc
    rw [List.foldl_cons]
    have hstep : fixButtonsStep acc it = (acc.1 ++ [it], acc.2) := by
      unfold fixButtonsStep
      rw [h it (List.mem_cons_self _ _)]
      simp
    rw [hstep, ih (fun j hj => h j (List.mem_cons_of_mem _ hj))]
    simp

theorem default_data_keys_nodup : (default_data.map Prod.fst).Nodup := by decide

theorem default_buttons_default :
    ∀ kv ∈ default_data, kv.1 = "buttons" → kv.2 = Json.arr [] := by
  intro kv hkv hb
  simp only [default_data, List.mem_cons, List.not_mem_nil, or_false] at hkv
  rcases hkv with rfl | rfl | rfl | rfl | rfl | rfl | rfl | rfl
  · rfl
  all_goals exact absurd hb (by decide)

theorem heal_document_eq (fields : List (String × Json)) :
    ∃ items1, lookupA (fixTopLevel fields).1 "buttons" = some (Json.arr items1)
      ∧ heal_document fields
          = (setA (fixTopLevel fields).1 "buttons" (.arr (fixButtons items1).1),
             (fixTopLevel fields).2 || (fixButtons items1).2) := by
  obtain ⟨vb, hvb, hsb, -, -⟩ :=
    foldl_fixKey_good default_data default_data_keys_nodup (fields, false)
      ("buttons", Json.arr []) (List.mem_cons_self _ _)
  obtain ⟨items1, rfl⟩ : ∃ items1, vb = Json.arr items1 := by
    cases vb <;> first | exact ⟨_, rfl⟩ | exact Bool.noConfusion hsb
  have hvb2 : lookupA (fixTopLevel fields).1 "buttons" = some (Json.arr items1) := hvb
  refine ⟨items1, hvb2, ?_⟩
  unfold heal_document
  rw [hvb2]

theorem heal_good (fields : List (String × Json)) :
    ∀ kv ∈ default_data, ∃ v, lookupA (heal_document fields).1 kv.1 = some v
      ∧ sameType v kv.2 = true := by
  obtain ⟨items1, hvb, hheal⟩ := heal_document_eq fields
  intro kv hkv
  simp only [hheal]
  by_cases hb : kv.1 = "buttons"
  · rw [hb, lookupA_setA_self]
    refine ⟨_, rfl, ?_⟩
    rw [default_buttons_default kv hkv hb]
    rfl
  · rw [lookupA_setA_ne _ _ _ _ (Ne.symm hb)]
    obtain ⟨v, hv, hs, -, -⟩ :=
      foldl_fixKey_good default_data default_data_keys_nodup (fields, false) kv hkv
    exact ⟨v, hv, hs⟩

theorem heal_reset (fields : List (String × Json)) :
    ∀ kv ∈ default_data, keyOk fields kv = false →
      lookupA (heal_document fields).1 kv.1 = some kv.2 := by
  obtain ⟨items1, hvb, hheal⟩ := heal_document_eq fields
  intro kv hkv hko
  simp only [hheal]
  obtain ⟨v, hv, -, hreset, -⟩ :=
    foldl_fixKey_good default_data default_data_keys_nodup (fields, false) kv hkv
  have hv2 : lookupA (fixTopLevel fields).1 kv.1 = some v := hv
  have hreset2 : v = kv.2 := hreset hko
  by_cases hb : kv.1 = "buttons"
  · rw [hb, lookupA_setA_self]
    have hdef := default_buttons_default kv hkv hb
    have hv3 : lookupA (fixTopLevel fields).1 "buttons" = some (Json.arr []) := by
      rw [← hb, hv2, hreset2, hdef]
    have hi : items1 = [] := by
      have h0 := hvb.symm.trans hv3
      simpa using h0
    subst hi
    rw [hdef]
    rfl
  · rw [lookupA_setA_ne _ _ _ _ (Ne.symm hb)]
    rw [hv2, hreset2]

theorem heal_buttons (fields : List (String × Json)) :
    ∃ items2, lookupA (heal_document fields).1 "buttons" = some (Json.arr items2)
      ∧ (∀ j ∈ items2, upgradeButton j = some (j, false))
      ∧ (∀ items, lookupA fields "buttons" = some (Json.arr items) →
          ∀ s, Json.str s ∈ items →
            Json.obj [("name", Json.str s), ("sub_buttons", Json.arr [])] ∈ items2) := by
  obtain ⟨items1, hvb, hheal⟩ := heal_document_eq fields
  refine ⟨(fixButtons items1).1, ?_, ?_, ?_⟩
  · simp only [hheal]
    exact lookupA_setA_self _ _ _
  · intro j hj
    rcases fixButtons_foldl_mem items1 ([], false) j hj with h0 | ⟨item, -, f, hup⟩
    · exact absurd h0 (List.not_mem_nil j)
    · exact upgradeButton_fixpoint item j f hup
  · intro items horig s hsmem
    obtain ⟨vb, hvb0, -, -, hpres⟩ :=
      foldl_fixKey_good default_data default_data_keys_nodup (fields, false)
        ("buttons", Json.arr []) (List.mem_cons_self _ _)
    have hw := hpres (Json.arr items) horig rfl
    have hvb1 : lookupA (fixTopLevel fields).1 "buttons" = some (Json.arr items) := by
      have hvb0b : lookupA (fixTopLevel fields).1 "buttons" = some vb := hvb0
      rw [hvb0b, hw]
    have hi : items1 = items := by
      have h0 := hvb.symm.trans hvb1
      simpa using h0
    exact fixButtons_foldl_legacy items1 ([], false) s (by rw [hi]; exact hsmem)

theorem keyOk_of_lookup (fields : List (String × Json)) (kv : String × Json) (v : Json)
    (hv : lookupA fields kv.1 = some v) (hs : sameType v kv.2 = true) :
    keyOk fields kv = true := by
  unfold keyOk
  rw [hv]
  exact hs

theorem heal_document_id_of (fields2 : List (String × Json)) (items2 : List Json)
    (h1a : (fixTopLevel fields2).1 = fields2)
    (h1b : (fixTopLevel fields2).2 = false)
    (h2 : lookupA fields2 "buttons" = some (Json.arr items2))
    (h3a : (fixButtons items2).1 = items2)
    (h3b : (fixButtons items2).2 = false) :
    heal_document fields2 = (fields2, false) := by
  unfold heal_document
  rw [h1a, h1b, h2]
  show (setA fields2 "buttons" (Json.arr (fixButtons items2).1),
        false || (fixButtons items2).2) = (fields2, false)
  rw [h3a, h3b, setA_lookup_id _ _ _ h2]
  rfl

set_option maxHeartbeats 1000000 in
theorem heal_idempotent (fields : List (String × Json)) :
    heal_document (heal_document fields).1 = ((heal_document fields).1, false) := by
  obtain ⟨items2, hlook2, hfix, -⟩ := heal_buttons fields
  have hgoodOk : ∀ kv ∈ default_data, keyOk (heal_document fields).1 kv = true := by
    intro kv hkv
    obtain ⟨v, hv, hs⟩ := heal_good fields kv hkv
    exact keyOk_of_lookup _ kv v hv hs
  have hid1 := foldl_fixKey_id default_data ((heal_document fields).1, false) hgoodOk
  have h1a : (fixTopLevel (heal_document fields).1).1 = (heal_document fields).1 := by
    show (default_data.foldl fixKeyStep ((heal_document fields).1, false)).1 = _
    rw [hid1]
  have h1b : (fixTopLevel (heal_document fields).1).2 = false := by
    show (default_data.foldl fixKeyStep ((heal_document fields).1, false)).2 = _
    rw [hid1]
  have hfb := fixButtons_foldl_id items2 hfix ([], false)
  have h3a : (fixButtons items2).1 = items2 := by
    show (items2.foldl fixButtonsStep ([], false)).1 = items2
    rw [hfb]
    simp
  have h3b : (fixButtons items2).2 = false := by
    show (items2.foldl fixButtonsStep ([], false)).2 = false
    rw [hfb]
  exact heal_document_id_of (heal_document fields).1 items2 h1a h1b hlook2 h3a h3b

/-- Counterexample for C5 as stated: a stored document that parses to the
JSON number `5` is parsable (so not replaced as corrupt) yet is not an
object; the healing loop's `key not in data` raises an uncaught `TypeError`
on an `int`, so startup aborts instead of self-healing — `load_data` on a
non-object document is the crash outcome (`none`), not a healed store. -/
theorem load_data_nonobject_counterexample :
    load_data (some (Json.num 5)) = none := rfl

/-- C5 (amended): loading self-heals without aborting for every stored JSON
object document: any top-level key of `default_data` that is missing or
wrong-typed is reset to its documented default; every legacy bare-string
entry of the `buttons` list is upgraded to the structured
`name`/`sub_buttons` shape, and every entry of the healed list is
structured; the healed document is persisted exactly once — a second load
returns the same document with the `fixed` (save) flag down; a missing,
empty or unparsable document is replaced wholesale by the defaults and
saved.  (A document that parses to a non-object value instead crashes
startup with an uncaught `TypeError` — the counterexample.) -/
theorem load_data_self_heal_spec (fields : List (String × Json)) :
    load_data none = some (Json.obj default_data, true)
    ∧ load_data (some (Json.obj fields))
        = some (Json.obj (heal_document fields).1, (heal_document fields).2)
    ∧ (∀ kv ∈ default_data, ∃ v, lookupA (heal_document fields).1 kv.1 = some v
        ∧ sameType v kv.2 = true)
    ∧ (∀ kv ∈ default_data, keyOk fields kv = false →
        lookupA (heal_document fields).1 kv.1 = some kv.2)
    ∧ (∃ items2, lookupA (heal_document fields).1 "buttons" = some (Json.arr items2)
        ∧ (∀ j ∈ items2, structuredButton j)
        ∧ (∀ items, lookupA fields "buttons" = some (Json.arr items) →
            ∀ s, Json.str s ∈ items →
              Json.obj [("name", Json.str s), ("sub_buttons", Json.arr [])] ∈ items2))
    ∧ load_data (some (Json.obj (heal_document fields).1))
        = some (Json.obj (heal_document fields).1, false) := by
  refine ⟨rfl, rfl, heal_good fields, heal_reset fields, ?_, ?_⟩
  · obtain ⟨items2, h1, h2, h3⟩ := heal_buttons fields
    exact ⟨items2, h1, fun j hj => structuredButton_of_fixpoint j (h2 j hj), h3⟩
  · show some (Json.obj (heal_document (heal_document fields).1).1,
        (heal_document (heal_document fields).1).2) = _
    rw [heal_idempotent fields]

/-- Witness for C5 (amended): a document with a legacy string button and a
wrong-typed blacklist — the blacklist is reset to the empty-list default and
a second load of the healed document performs no further fix. -/
theorem load_data_self_heal_spec_witness :
    lookupA (heal_document [("buttons", Json.arr [Json.str "OTT"]),
        ("blacklist", Json.num 3)]).1 "blacklist" = some (Json.arr [])
    ∧ load_data (some (Json.obj (heal_document [("buttons", Json.arr [Json.str "OTT"]),
        ("blacklist", Json.num 3)]).1))
        = some (Json.obj (heal_document [("buttons", Json.arr [Json.str "OTT"]),
            ("blacklist", Json.num 3)]).1, false) := by
  have h := load_data_self_heal_spec
    [("buttons", Json.arr [Json.str "OTT"]), ("blacklist", Json.num 3)]
  exact ⟨h.2.2.2.1 ("blacklist", Json.arr []) (by simp [default_data]) rfl,
         h.2.2.2.2.2⟩

/-- One spreadsheet cell as the merge job sees it: `cell.value`, with `none`
for an empty cell; submission grids are modelled as text cells. -/
abbrev Row := List (Option String)

/-- Python truthiness of a cell value inside `any(row_data)`: `None` and the
empty string are falsy, any other string is truthy. -/
def cellTruthy : Option String → Bool
  | none => false
  | some s => s != ""

/-- The test `any(row_data)` — the row holds at least one non-empty cell. -/
def rowTruthy (r : Row) : Bool := r.any cellTruthy

/-- The header extraction `[cell.value for cell in user_sheet[1] if cell.value is not None]`
(bot.py line 869): the non-null cells of the first row. -/
def headerCells (file : List Row) : List String :=
  (file.headD []).filterMap id

/-- Processing one user file inside the merge loop (bot.py lines 862-879).
The accumulator is the output sheet's rows, the `is_header_written` flag and
the `has_data_for_category` flag.  The header (if not yet written and
non-empty after dropping nulls) is appended first, then every data row
(rows 2..max_row) holding a truthy cell. -/
def processFile : (List Row × Bool × Bool) → List Row → (List Row × Bool × Bool)
  | (rows, hw, hd), file =>
    (file.drop 1).foldl
      (fun a r => if rowTruthy r then (a.1 ++ [r], a.2.1, true) else a)
      (if hw = false ∧ headerCells file ≠ [] then
         (rows ++ [(headerCells file).map some], true, hd)
       else (rows, hw, hd))

/-- All data rows (row 2 onwards) of the enumerated files, in scan order. -/
def joinedData (files : List (List Row)) : List Row :=
  (files.map (fun f => f.drop 1)).flatten

/-- The data rows the merge keeps: those with at least one non-empty cell. -/
def dataRows (files : List (List Row)) : List Row :=
  (joinedData files).filter rowTruthy

/-- The whole per-category aggregation loop state. -/
def mergeRun (files : List (List Row)) : List Row × Bool × Bool :=
  files.foldl processFile ([], false, false)

/-- Shallow embedding of one category's pass of `merge_and_send_files`
(bot.py lines 844-912): with no submitted files the category is skipped
before any deletion; otherwise every enumerated file is deleted after the
scan, and the report is produced unless the output sheet has at most one row
(`sheet.max_row <= 1`; an appended-rows count of at most 1, since an openpyxl
sheet reports `max_row = 1` even when empty) or no truthy data row was seen.
Returns the report grid (if any) and whether the input files were deleted. -/
def merge_category : List (List Row) → Option (List Row) × Bool
  | [] => (none, false)
  | f :: rest =>
    if (mergeRun (f :: rest)).1.length ≤ 1 ∨ (mergeRun (f :: rest)).2.2 = false
    then (none, true)
    else (some (mergeRun (f :: rest)).1, true)

theorem merge_inner_fold (l : List Row) :
    ∀ (rows : List Row) (hw hd : Bool),
      l.foldl (fun a r => if rowTruthy r then (a.1 ++ [r], a.2.1, true) else a) (rows, hw, hd)
        = (rows ++ l.filter rowTruthy, hw, hd || l.any rowTruthy) := by
  induction l with
  | nil => intro rows hw hd; simp
  | cons r t ih =>
    intro rows hw hd
    by_cases hr : rowTruthy r = true
    · rw [List.foldl_cons, if_pos hr, ih]
      simp [List.filter_cons, hr, List.any_cons]
    · rw [List.foldl_cons, if_neg hr, ih]
      simp only [Bool.not_eq_true] at hr
      simp [List.filter_cons, hr, List.any_cons]

theorem processFile_eq (rows : List Row) (hw hd : Bool) (file : List Row) :
    processFile (rows, hw, hd) file
      = (if hw = false ∧ headerCells file ≠ [] then
           (rows ++ [(headerCells file).map some] ++ (file.drop 1).filter rowTruthy, true,
            hd || (file.drop 1).any rowTruthy)
         else (rows ++ (file.drop 1).filter rowTruthy, hw,
            hd || (file.drop 1).any rowTruthy)) := by
  by_cases hc : hw = false ∧ headerCells file ≠ []
  · rw [if_pos hc]
    show (file.drop 1).foldl _ (if hw = false ∧ headerCells file ≠ [] then _ else _) = _
    rw [if_pos hc, merge_inner_fold]
  · rw [if_neg hc]
    show (file.drop 1).foldl _ (if hw = false ∧ headerCells file ≠ [] then _ else _) = _
    rw [if_neg hc, merge_inner_fold]

theorem merge_outer_fold (files : List (List Row)) :
    ∀ (rows : List Row) (hd : Bool),
      files.foldl processFile (rows, true, hd)
        = (rows ++ dataRows files, true, hd || (joinedData files).any rowTruthy) := by
  induction files with
  | nil => intro rows hd; simp [dataRows, joinedData]
  | cons f rest ih =>
    intro rows hd
    rw [List.foldl_cons, processFile_eq, if_neg (by simp), ih]
    simp [dataRows, joinedData, List.filter_append, List.any_append,
      List.append_assoc, Bool.or_assoc]

theorem merge_fold_flag (files : List (List Row)) :
    ∀ (rows : List Row) (hw hd : Bool),
      (files.foldl processFile (rows, hw, hd)).2.2
        = (hd || (joinedData files).any rowTruthy) := by
  induction files with
  | nil => intro rows hw hd; simp [joinedData]
  | cons f rest ih =>
    intro rows hw hd
    rw [List.foldl_cons, processFile_eq]
    by_cases hc : hw = false ∧ headerCells f ≠ []
    · rw [if_pos hc, ih]
      simp [joinedData, List.any_append, Bool.or_assoc]
    · rw [if_neg hc, ih]
      simp [joinedData, List.any_append, Bool.or_assoc]

/-- Counterexample for C3 as stated: one submitted file whose header row is
completely empty and which holds exactly one genuine data row.  The claim
requires exactly one report; the code produces none (the report sheet ends
with a single row, `sheet.max_row <= 1`, so delivery is skipped) while the
input file is still deleted. -/
theorem merge_and_send_files_counterexample :
    rowTruthy [some "x"] = true
    ∧ (merge_category [[[none], [some "x"]]]).1 = none
    ∧ (merge_category [[[none], [some "x"]]]).2 = true := by decide

/-- C3 (amended): per category, zero submission files produce no report and
delete nothing; as soon as files exist they are all deleted after the scan,
whatever else happens; if no data row with a non-empty cell exists across the
files, no report is produced; and when the first enumerated file's header row
holds at least one non-null cell and at least one genuine data row exists,
exactly one report is produced consisting of that header (null cells dropped)
followed by every genuine data row of every file in scan order.  (When no
file yields a usable header, the report is instead the bare genuine data rows,
and it is dropped whenever fewer than two of them exist — the situation of the
counterexample.) -/
theorem merge_and_send_files_spec (files : List (List Row)) :
    (files = [] → merge_category files = (none, false))
    ∧ (files ≠ [] → (merge_category files).2 = true)
    ∧ (dataRows files = [] → (merge_category files).1 = none)
    ∧ (∀ f0 rest, files = f0 :: rest → headerCells f0 ≠ [] → dataRows files ≠ [] →
        merge_category files
          = (some ((headerCells f0).map some :: dataRows files), true)) := by
  refine ⟨?_, ?_, ?_, ?_⟩
  · intro h; subst h; rfl
  · intro h
    match files with
    | [] => exact absurd rfl h
    | f :: rest =>
      show (if _ ∨ _ then ((none : Option (List Row)), true) else _).2 = true
      split <;> rfl
  · intro hdr
    match files with
    | [] => rfl
    | f :: rest =>
      have hany : (joinedData (f :: rest)).any rowTruthy = false := by
        rw [List.any_eq_false]
        intro x hx hpx
        have : x ∈ dataRows (f :: rest) := List.mem_filter.2 ⟨hx, hpx⟩
        rw [hdr] at this
        cases this
      have hflag : (mergeRun (f :: rest)).2.2 = false := by
        unfold mergeRun
        rw [merge_fold_flag]
        simp [hany]
      show (if _ ∨ _ then ((none : Option (List Row)), true) else _).1 = none
      rw [if_pos (Or.inr hflag)]
  · intro f0 rest heq hh hdr
    subst heq
    have hrun : mergeRun (f0 :: rest)
        = ((headerCells f0).map some :: dataRows (f0 :: rest), true,
           (f0.drop 1).any rowTruthy || (joinedData rest).any rowTruthy) := by
      unfold mergeRun
      rw [List.foldl_cons, processFile_eq, if_pos ⟨rfl, hh⟩, merge_outer_fold]
      simp [dataRows, joinedData, List.filter_append, List.append_assoc]
    have hex : ∃ x ∈ joinedData (f0 :: rest), rowTruthy x = true := by
      obtain ⟨x, hx⟩ := List.exists_mem_of_ne_nil _ hdr
      have := List.mem_filter.1 hx
      exact ⟨x, this.1, this.2⟩
    have hany : ((f0.drop 1).any rowTruthy || (joinedData rest).any rowTruthy) = true := by
      have h2 : (joinedData (f0 :: rest)).any rowTruthy = true := List.any_eq_true.2 hex
      rw [show joinedData (f0 :: rest) = f0.drop 1 ++ joinedData rest from by
        simp [joinedData]] at h2
      rw [List.any_append] at h2
      exact h2
    have hlen : ¬ ((mergeRun (f0 :: rest)).1.length ≤ 1) := by
      rw [hrun]
      have : 0 < (dataRows (f0 :: rest)).length := List.length_pos.2 hdr
      simp only [List.length_cons]
      omega
    show (if _ ∨ _ then ((none : Option (List Row)), true) else _) = _
    rw [if_neg ?_]
    · rw [hrun]
    · rintro (hc | hc)
      · exact hlen hc
      · rw [hrun] at hc
        simp only at hc
        rw [hany] at hc
        exact Bool.noConfusion hc

/-- Witness for C3 (amended): two files, the first with header `h` (plus a
null cell) and one genuine data row, the second with an unused header and one
genuine plus one empty data row — one report with the first header and the two
genuine rows, both files consumed. -/
theorem merge_and_send_files_spec_witness :
    merge_category [[[some "h", none], [some "x", some "y"], [none, none]],
                    [[some "h2"], [none], [some "z"]]]
      = (some [[some "h"], [some "x", some "y"], [some "z"]], true) := by
  have h := (merge_and_send_files_spec
      [[[some "h", none], [some "x", some "y"], [none, none]],
       [[some "h2"], [none], [some "z"]]]).2.2.2
      [[some "h", none], [some "x", some "y"], [none, none]]
      [[[some "h2"], [none], [some "z"]]] rfl (by decide) (by decide)
  exact h.trans (by decide)

/-- One entry of the store's `buttons` list after the structural upgrade:
a main category with its ordered subcategories. -/
structure ButtonEntry where
  name : String
  sub_buttons : List String
deriving DecidableEq, Repr

/-- The store fields touched by the removal handlers. -/
structure AdminData where
  buttons : List ButtonEntry
  number_progress : List (String × List (String × Nat))
deriving DecidableEq, Repr

/-- The resource path `UPLOADS_DIR / f"{main}_{sub}.txt"` (bot.py lines 319, 1125, 1212). -/
def fileName (main sub : String) : String := main ++ "_" ++ sub ++ ".txt"

/-- The deletion `if file_path.exists(): os.remove(file_path)` on a filesystem modelled as
the list of existing file names. -/
def deleteFile (files : List String) (name : String) : List String :=
  files.filter (fun f => f ≠ name)

/-- In-place mutation of the first list element satisfying `p`, as Python's
`next(btn for btn in data['buttons'] if ...)` aliases that dict and mutations
through it land in the list. -/
def updateFirst {α : Type} (p : α → Bool) (f : α → α) : List α → List α
  | [] => []
  | x :: xs => if p x then f x :: xs else x :: updateFirst p f xs

/-- Nested cursor lookup `number_progress.get(m, {}).get(s)`. -/
def lookup2 (p : List (String × List (String × Nat))) (m s : String) : Option Nat :=
  match lookupA p m with
  | some mm => lookupA mm s
  | none => none

/-- Shallow embedding of `remove_main_button_action` (bot.py lines 1106-1137):
find the first button with the given name; if absent, reply an error and
change nothing; otherwise delete the backing file of each of its
sub-buttons, pop the category's whole `number_progress` entry, and remove the
button object from the list. -/
def remove_main_button_action (name : String) (d : AdminData) (files : List String) :
    AdminData × List String :=
  match d.buttons.find? (fun x => x.name == name) with
  | none => (d, files)
  | some b =>
    (⟨d.buttons.erase b, eraseA d.number_progress name⟩,
     b.sub_buttons.foldl (fun fs sb => deleteFile fs (fileName name sb)) files)

/-- Shallow embedding of `remove_sub_button_action` (bot.py lines 1190-1228):
find the first button with the selected main name; when it exists and holds
the sub-button, remove the sub-button from its list, delete the file
`{main}_{sub}.txt` if present, and pop the `(main, sub)` cursor entry;
otherwise reply an error and change nothing. -/
def remove_sub_button_action (main sub : String) (d : AdminData) (files : List String) :
    AdminData × List String :=
  match d.buttons.find? (fun x => x.name == main) with
  | none => (d, files)
  | some b =>
    if sub ∈ b.sub_buttons then
      (⟨updateFirst (fun x => x.name == main)
          (fun x => { x with sub_buttons := x.sub_buttons.erase sub }) d.buttons,
        match lookupA d.number_progress main with
        | some m =>
          if (lookupA m sub).isSome then setA d.number_progress main (eraseA m sub)
          else d.number_progress
        | none => d.number_progress⟩,
       deleteFile files (fileName main sub))
    else (d, files)

theorem lookupA_eraseA_self {α : Type} (l : List (String × α)) (k : String) :
    lookupA (eraseA l k) k = none := by
  induction l with
  | nil => rfl
  | cons kv rest ih =>
    obtain ⟨k0, v0⟩ := kv
    by_cases h : k0 = k
    · simp [eraseA, h, ih]
    · simp [eraseA, lookupA, h, ih]

theorem lookupA_eraseA_ne {α : Type} (l : List (String × α)) (k k2 : String)
    (h : k2 ≠ k) : lookupA (eraseA l k) k2 = lookupA l k2 := by
  induction l with
  | nil => rfl
  | cons kv rest ih =>
    obtain ⟨k0, v0⟩ := kv
    by_cases h0 : k0 = k
    · subst h0
      simp [eraseA, lookupA, Ne.symm h, ih]
    · by_cases h2 : k0 = k2
      · simp [eraseA, lookupA, h0, h2, h]
      · simp [eraseA, lookupA, h0, h2, ih]

theorem mem_deleteFile (fs : List String) (n f : String) :
    f ∈ deleteFile fs n ↔ f ∈ fs ∧ f ≠ n := by
  simp [deleteFile, List.mem_filter]

theorem mem_removeSubFiles (name : String) :
    ∀ (subs : List String) (files : List String) (f : String),
      (f ∈ subs.foldl (fun fs sb => deleteFile fs (fileName name sb)) files
        ↔ f ∈ files ∧ ∀ sb ∈ subs, f ≠ fileName name sb) := by
  intro subs
  induction subs with
  | nil => intro files f; simp
  | cons sb subs ih =>
    intro files f
    rw [List.foldl_cons, ih, mem_deleteFile]
    constructor
    · rintro ⟨⟨hf, hne⟩, hall⟩
      refine ⟨hf, ?_⟩
      intro x hx
      rcases List.mem_cons.1 hx with rfl | hx2
      · exact hne
      · exact hall x hx2
    · rintro ⟨hf, hall⟩
      exact ⟨⟨hf, hall sb (List.mem_cons_self sb subs)⟩,
             fun x hx => hall x (List.mem_cons_of_mem _ hx)⟩

theorem mem_updateFirst {α : Type} (p : α → Bool) (f : α → α) :
    ∀ (l : List α) (x : α), x ∈ l → p x = false → x ∈ updateFirst p f l := by
  intro l
  induction l with
  | nil => intro x hx; cases hx
  | cons y ys ih =>
    intro x hx hp
    rcases List.mem_cons.1 hx with rfl | hx2
    · rw [updateFirst, if_neg (by simp [hp])]
      exact List.mem_cons_self _ _
    · rw [updateFirst]
      by_cases hy : p y = true
      · rw [if_pos hy]; exact List.mem_cons_of_mem _ hx2
      · rw [if_neg hy]; exact List.mem_cons_of_mem _ (ih x hx2 hp)

/-- Counterexample for C8 as stated: resource file names are built by plain
string joining `{main}_{sub}.txt`, so distinct pairs can collide.  With
categories `a_b` (sub `c`) and `a` (sub `b_c`), both pairs share the backing
file `a_b_c.txt`; removing sub-button `c` of `a_b` also deletes the file of
the untouched pair `("a", "b_c")`, so some other subcategory's file does not
stay unchanged. -/
theorem remove_button_counterexample :
    fileName "a" "b_c" ∈ ["a_b_c.txt"]
    ∧ ("a", "b_c") ≠ ("a_b", "c")
    ∧ fileName "a" "b_c"
        ∉ (remove_sub_button_action "a_b" "c"
            ⟨[⟨"a_b", ["c"]⟩, ⟨"a", ["b_c"]⟩], []⟩ ["a_b_c.txt"]).2 := by decide

/-- C8 (amended): removing a main category deletes the backing file of every
one of its subcategories and the category's entire cursor table, leaves every
other category's cursors and buttons in place, and deletes no file other than
those bearing the removed pairs' joined names; removing a single subcategory
deletes that subcategory's file and cursor entry and preserves every other
cursor entry, every other button, and every file whose name differs from the
joined name `{main}_{sub}.txt` — the frame is stated up to joined-name
equality because distinct pairs with colliding joined names share one file. -/
theorem remove_button_spec (d : AdminData) (files : List String)
    (name main sub : String) :
    (∀ bm, d.buttons.find? (fun x => x.name == name) = some bm →
      (∀ sb ∈ bm.sub_buttons, fileName name sb ∉ (remove_main_button_action name d files).2)
      ∧ (∀ s, lookup2 (remove_main_button_action name d files).1.number_progress name s = none)
      ∧ (∀ m2, m2 ≠ name →
          lookupA (remove_main_button_action name d files).1.number_progress m2
            = lookupA d.number_progress m2)
      ∧ (∀ f ∈ files, (∀ sb ∈ bm.sub_buttons, f ≠ fileName name sb) →
          f ∈ (remove_main_button_action name d files).2)
      ∧ (∀ b2 ∈ d.buttons, b2.name ≠ name →
          b2 ∈ (remove_main_button_action name d files).1.buttons))
    ∧ (∀ bs, d.buttons.find? (fun x => x.name == main) = some bs →
        sub ∈ bs.sub_buttons →
      fileName main sub ∉ (remove_sub_button_action main sub d files).2
      ∧ lookup2 (remove_sub_button_action main sub d files).1.number_progress main sub = none
      ∧ (∀ m2 s2, (m2, s2) ≠ (main, sub) →
          lookup2 (remove_sub_button_action main sub d files).1.number_progress m2 s2
            = lookup2 d.number_progress m2 s2)
      ∧ (∀ f ∈ files, f ≠ fileName main sub →
          f ∈ (remove_sub_button_action main sub d files).2)
      ∧ (∀ b2 ∈ d.buttons, b2.name ≠ main →
          b2 ∈ (remove_sub_button_action main sub d files).1.buttons)) := by
  constructor
  · intro bm hfm
    simp only [remove_main_button_action, hfm]
    refine ⟨?_, ?_, ?_, ?_, ?_⟩
    · intro sb hsb hmem
      exact ((mem_removeSubFiles name bm.sub_buttons files _).1 hmem).2 sb hsb rfl
    · intro s
      simp [lookup2, lookupA_eraseA_self]
    · intro m2 hm2
      exact lookupA_eraseA_ne d.number_progress name m2 hm2
    · intro f hf hall
      exact (mem_removeSubFiles name bm.sub_buttons files f).2 ⟨hf, hall⟩
    · intro b2 hb2 hb2n
      have hbmname : bm.name = name := by
        have := List.find?_some hfm
        simpa using this
      refine (List.mem_erase_of_ne ?_).2 hb2
      intro heq
      exact hb2n (heq ▸ hbmname)
  · intro bs hfs hsub
    simp only [remove_sub_button_action, hfs, if_pos hsub]
    refine ⟨?_, ?_, ?_, ?_, ?_⟩
    · intro hmem
      exact ((mem_deleteFile files (fileName main sub) _).1 hmem).2 rfl
    · show lookup2 (match lookupA d.number_progress main with
        | some m =>
          if (lookupA m sub).isSome then setA d.number_progress main (eraseA m sub)
          else d.number_progress
        | none => d.number_progress) main sub = none
      rcases hlm : lookupA d.number_progress main with _ | m
      · simp [lookup2, hlm]
      · simp only
        by_cases hls : (lookupA m sub).isSome = true
        · rw [if_pos hls]
          simp [lookup2, lookupA_setA_self, lookupA_eraseA_self]
        · rw [if_neg hls]
          simp only [lookup2, hlm]
          exact Option.not_isSome_iff_eq_none.1 hls
    · intro m2 s2 hne
      show lookup2 (match lookupA d.number_progress main with
        | some m =>
          if (lookupA m sub).isSome then setA d.number_progress main (eraseA m sub)
          else d.number_progress
        | none => d.number_progress) m2 s2 = lookup2 d.number_progress m2 s2
      rcases hlm : lookupA d.number_progress main with _ | m
      · simp
      · simp only
        by_cases hls : (lookupA m sub).isSome = true
        · rw [if_pos hls]
          by_cases hm2 : m2 = main
          · subst hm2
            have hs2 : s2 ≠ sub := by
              intro hs
              exact hne (by rw [hs])
            simp [lookup2, lookupA_setA_self, hlm, lookupA_eraseA_ne m sub s2 hs2]
          · simp [lookup2, lookupA_setA_ne d.number_progress main m2 _ (Ne.symm hm2)]
        · rw [if_neg hls]
    · intro f hf hne
      exact (mem_deleteFile files (fileName main sub) f).2 ⟨hf, hne⟩
    · intro b2 hb2 hb2n
      exact mem_updateFirst _ _ d.buttons b2 hb2 (by simp [hb2n])

/-- Witness for C8 (amended): removing sub-button `Netflix` of `OTT` deletes
its file and cursor entry and leaves the sibling `Zee5` cursor alone. -/
theorem remove_button_spec_witness :
    fileName "OTT" "Netflix"
      ∉ (remove_sub_button_action "OTT" "Netflix"
          ⟨[⟨"OTT", ["Netflix", "Zee5"]⟩], [("OTT", [("Netflix", 3), ("Zee5", 1)])]⟩
          ["OTT_Netflix.txt", "OTT_Zee5.txt"]).2
    ∧ lookup2 (remove_sub_button_action "OTT" "Netflix"
          ⟨[⟨"OTT", ["Netflix", "Zee5"]⟩], [("OTT", [("Netflix", 3), ("Zee5", 1)])]⟩
          ["OTT_Netflix.txt", "OTT_Zee5.txt"]).1.number_progress "OTT" "Netflix" = none
    ∧ lookup2 (remove_sub_button_action "OTT" "Netflix"
          ⟨[⟨"OTT", ["Netflix", "Zee5"]⟩], [("OTT", [("Netflix", 3), ("Zee5", 1)])]⟩
          ["OTT_Netflix.txt", "OTT_Zee5.txt"]).1.number_progress "OTT" "Zee5"
        = lookup2 [("OTT", [("Netflix", 3), ("Zee5", 1)])] "OTT" "Zee5" := by
  have h := (remove_button_spec
      ⟨[⟨"OTT", ["Netflix", "Zee5"]⟩], [("OTT", [("Netflix", 3), ("Zee5", 1)])]⟩
      ["OTT_Netflix.txt", "OTT_Zee5.txt"] "OTT" "OTT" "Netflix").2
      ⟨"OTT", ["Netflix", "Zee5"]⟩ (by decide) (by decide)
  exact ⟨h.1, h.2.1, h.2.2.1 "OTT" "Zee5" (by decide)⟩

/-- The unpacking `hour, minute = map(int, schedule_info["time"].split(':'))` in
`schedule_daily_job` (bot.py line 928): the unpacking requires exactly two
`:`-separated parts, each a decimal numeral (`int` of a stored `HH:MM`
value). -/
def parseHM (s : String) : Option (Nat × Nat) :=
  match s.splitOn ":" with
  | [h, m] =>
    match h.toNat?, m.toNat? with
    | some hh, some mm => some (hh, mm)
    | _, _ => none
  | _ => none

/-- Shallow embedding of `schedule_daily_job` (bot.py lines 915-940) acting on
the scheduler's job list (jobs carrying the given id; apscheduler keys jobs by
id).  An existing job with the stored id is removed first; a new job is added
only when a time is stored and building the `CronTrigger` succeeds — the hour
must be 0-23, the minute 0-59, and the timezone lookup must not raise
(`tzOk`); any failure is caught and leaves no new job. -/
def removeExistingJob (jobs : List String) (job_id : String) : List String :=
  if job_id ∈ jobs then jobs.erase job_id else jobs

def schedule_daily_job (jobs : List String) (job_id : String)
    (timeOpt : Option String) (tzOk : Bool) : List String :=
  match timeOpt with
  | none => removeExistingJob jobs job_id
  | some t =>
    match parseHM t with
    | some (hh, mm) =>
      if tzOk ∧ hh ≤ 23 ∧ mm ≤ 59 then removeExistingJob jobs job_id ++ [job_id]
      else removeExistingJob jobs job_id
    | none => removeExistingJob jobs job_id

/-- A whole history of reschedules applied from the fresh scheduler (no jobs),
as produced by `post_init` and repeated `set_delivery_time_receive` calls. -/
def runSchedules (job_id : String) (updates : List (Option String × Bool)) : List String :=
  updates.foldl (fun jobs u => schedule_daily_job jobs job_id u.1 u.2) []

theorem schedule_daily_job_count (jobs : List String) (job_id : String)
    (timeOpt : Option String) (tzOk : Bool) (hle : jobs.count job_id ≤ 1) :
    (schedule_daily_job jobs job_id timeOpt tzOk).count job_id ≤ 1
    ∧ (timeOpt = none → (schedule_daily_job jobs job_id timeOpt tzOk).count job_id = 0) := by
  have h1 : (removeExistingJob jobs job_id).count job_id = 0 := by
    unfold removeExistingJob
    by_cases hm : job_id ∈ jobs
    · rw [if_pos hm, List.count_erase_self]
      have hpos := List.count_pos_iff.2 hm
      omega
    · rw [if_neg hm]
      exact List.count_eq_zero.2 hm
  unfold schedule_daily_job
  cases timeOpt with
  | none =>
    refine ⟨?_, fun _ => h1⟩
    show (removeExistingJob jobs job_id).count job_id ≤ 1
    omega
  | some t =>
    refine ⟨?_, fun hc => Option.noConfusion hc⟩
    show (List.count job_id (match parseHM t with
      | some (hh, mm) =>
        if tzOk ∧ hh ≤ 23 ∧ mm ≤ 59 then removeExistingJob jobs job_id ++ [job_id]
        else removeExistingJob jobs job_id
      | none => removeExistingJob jobs job_id)) ≤ 1
    rcases hpm : parseHM t with _ | ⟨hh, mm⟩ <;> simp only [hpm]
    · omega
    · by_cases hok : tzOk = true ∧ hh ≤ 23 ∧ mm ≤ 59
      · rw [if_pos hok, List.count_append, h1, List.count_singleton_self]
      · rw [if_neg hok]
        omega

/-- C4: over every history of `schedule_daily_job` reschedules starting from
the fresh scheduler, at most one job with the stored job-id is ever active
(the existing job is removed before any replacement is added), and a final
reschedule with the stored time set to null leaves no job with that id active
at all. -/
theorem schedule_daily_job_unique (job_id : String)
    (updates : List (Option String × Bool)) (tzOk : Bool) :
    (runSchedules job_id updates).count job_id ≤ 1
    ∧ (runSchedules job_id (updates ++ [(none, tzOk)])).count job_id = 0 := by
  have main : ∀ (us : List (Option String × Bool)) (init : List String),
      init.count job_id ≤ 1 →
      (us.foldl (fun jobs u => schedule_daily_job jobs job_id u.1 u.2) init).count job_id ≤ 1 := by
    intro us
    induction us with
    | nil => intro init h; exact h
    | cons u us ih =>
      intro init h
      exact ih _ (schedule_daily_job_count init job_id u.1 u.2 h).1
  constructor
  · exact main updates [] (by simp)
  · unfold runSchedules
    rw [List.foldl_append]
    exact (schedule_daily_job_count _ job_id none tzOk (main updates [] (by simp))).2 rfl

/-- Value of an ASCII digit character. -/
def digitVal (c : Char) : Nat := c.toNat - 48

/-- The range test `lo ≤ c ≤ hi` on code points; digit classes of the time regex. -/
def isDigitIn (c : Char) (lo hi : Nat) : Bool :=
  lo ≤ c.toNat && c.toNat ≤ hi

/-- The hour alternative `(0?[1-9]|1[0-2])` of the delivery-time regex
(bot.py line 797), followed by the mandatory `:`.  Python tries `0?[1-9]`
first and backtracks into `1[0-2]` only when the next character is not the
colon, so a two-digit hour starting with `1` is taken exactly when the third
character is `:`.  Returns the hour and the unconsumed remainder. -/
def parseHour12 : List Char → Option (Nat × List Char)
  | [] => none
  | c0 :: rest =>
    if c0 = '0' then
      match rest with
      | [] => none
      | c1 :: rest2 => if isDigitIn c1 49 57 then some (digitVal c1, rest2) else none
    else if isDigitIn c0 49 57 then
      if c0 = '1' then
        match rest with
        | c1 :: c2 :: rest2 =>
          if isDigitIn c1 48 50 ∧ c2 = ':' then some (10 + digitVal c1, c2 :: rest2)
          else some (digitVal c0, rest)
        | _ => some (digitVal c0, rest)
      else some (digitVal c0, rest)
    else none

/-- The `([AP]M)$` tail with `re.IGNORECASE`: one of `AaPp`, one of `Mm`, then
end of string — Python's `$` also matches just before a single trailing
newline.  Returns whether the meridiem is PM. -/
def parseMeridiem : List Char → Option Bool
  | c1 :: c2 :: rest =>
    if (c1 = 'A' ∨ c1 = 'a') ∧ (c2 = 'M' ∨ c2 = 'm') ∧ (rest = [] ∨ rest = ['\n']) then
      some false
    else if (c1 = 'P' ∨ c1 = 'p') ∧ (c2 = 'M' ∨ c2 = 'm') ∧ (rest = [] ∨ rest = ['\n']) then
      some true
    else none
  | _ => none

/-- Faithful functional reading of
`re.match(r'^(0?[1-9]|1[0-2]):([0-5][0-9])\s*([AP]M)$', time_input, re.IGNORECASE)`
returning the captured hour, minute and meridiem. -/
def parse_time_12h (s : String) : Option (Nat × Nat × Bool) :=
  match parseHour12 s.data with
  | none => none
  | some (h, rest) =>
    match rest with
    | ':' :: m1 :: m2 :: rest2 =>
      if isDigitIn m1 48 53 ∧ isDigitIn m2 48 57 then
        match parseMeridiem (rest2.dropWhile isPyWhitespace) with
        | none => none
        | some pm => some (h, 10 * digitVal m1 + digitVal m2, pm)
      else none
    | _ => none

/-- The 12-hour to 24-hour conversion of `set_delivery_time_receive`
(bot.py lines 810-814): add 12 for PM hours other than 12, map 12 AM to 0. -/
def hour24_of (h12 : Nat) (isPM : Bool) : Nat :=
  match isPM with
  | true => if h12 ≠ 12 then h12 + 12 else h12
  | false => if h12 = 12 then 0 else h12

/-- Python `f"{n:02d}"` for `n < 100`. -/
def pad2 (n : Nat) : String := if n < 10 then "0" ++ toString n else toString n

/-- Shallow embedding of the validation and storage part of
`set_delivery_time_receive` (bot.py lines 789-818): the stored
`delivery_schedule["time"]` string for a given operator input, or `none` when
the input is rejected. -/
def set_delivery_time_receive (input : String) : Option String :=
  match parse_time_12h input with
  | none => none
  | some (h, m, pm) => some (pad2 (hour24_of h pm) ++ ":" ++ pad2 m)

/-- The conversion exactly as the claim words it: hour 12 with AM maps to 0,
hour 12 with PM maps to 12, any other PM hour has 12 added, any other AM hour
is unchanged. -/
def claim_hour24 (h12 : Nat) (isPM : Bool) : Nat :=
  if h12 = 12 then (if isPM then 12 else 0)
  else (if isPM then h12 + 12 else h12)

theorem hour24_of_eq_claim (h12 : Nat) (isPM : Bool) :
    hour24_of h12 isPM = claim_hour24 h12 isPM := by
  cases isPM <;> by_cases h : h12 = 12 <;> simp [hour24_of, claim_hour24, h]

theorem parseHour12_bounds (cs : List Char) (h : Nat) (rest : List Char)
    (hp : parseHour12 cs = some (h, rest)) : 1 ≤ h ∧ h ≤ 12 := by
  unfold parseHour12 at hp
  repeat split at hp
  all_goals simp_all [isDigitIn, digitVal]
  all_goals (repeat split at hp)
  all_goals simp_all
  all_goals (try obtain ⟨hg2, hp⟩ := hp)
  all_goals (repeat split at hp)
  all_goals (try simp_all)
  all_goals omega

/-- C9: every operator input the delivery-time regex accepts has a captured
hour in 1..12 and minute in 0..59, and the stored schedule time is the
zero-padded 24-hour normalization described by the claim (12 AM to 00, 12 PM
to 12, other PM hours plus 12, other AM hours unchanged, minutes preserved). -/
theorem set_delivery_time_spec (s : String) (h m : Nat) (pm : Bool)
    (hp : parse_time_12h s = some (h, m, pm)) :
    1 ≤ h ∧ h ≤ 12 ∧ m ≤ 59
    ∧ set_delivery_time_receive s = some (pad2 (claim_hour24 h pm) ++ ":" ++ pad2 m) := by
  have hp0 := hp
  unfold parse_time_12h at hp
  split at hp
  · exact Option.noConfusion hp
  · rename_i hrest hph
    split at hp
    · rename_i m1 m2 rest2
      split at hp
      · rename_i hdig
        split at hp
        · exact Option.noConfusion hp
        · rename_i pm0 hpm
          simp only [Option.some.injEq, Prod.mk.injEq] at hp
          obtain ⟨hh, hm, hpmeq⟩ := hp
          subst hh
          subst hm
          subst hpmeq
          obtain ⟨hb1, hb2⟩ := parseHour12_bounds s.data _ _ hph
          refine ⟨hb1, hb2, ?_, ?_⟩
          · simp only [isDigitIn, Bool.and_eq_true, decide_eq_true_eq] at hdig
            unfold digitVal
            omega
          · unfold set_delivery_time_receive
            rw [hp0]
            exact congrArg some (by rw [hour24_of_eq_claim])
      · exact Option.noConfusion hp
    · exact Option.noConfusion hp

/-- Witness for C9: `7:45 pm` parses and is stored as `19:45`. -/
theorem set_delivery_time_spec_witness :
    parse_time_12h "7:45 pm" = some (7, 45, true)
    ∧ set_delivery_time_receive "7:45 pm" = some "19:45" := by
  refine ⟨by decide, ?_⟩
  have h := (set_delivery_time_spec "7:45 pm" 7 45 true (by decide)).2.2.2
  exact h.trans (by decide)

/-- Result of `receive_user_file` (bot.py lines 415-447): the reply sent, the
user context afterwards, and the set of live submission files, each keyed by
`(userId, category)` (path `uploads/user_files/{userId}/{category}.xlsx`). -/
structure SubmitResult where
  reply : String
  ctx : Ctx
  files : List (Nat × String)
deriving DecidableEq, Repr

/-- Shallow embedding of `receive_user_file`.  When the selected submission
category is absent from the context, the handler replies with a generic error
and returns — it does not touch the context or the filesystem.  Otherwise the
previous file for `(userId, category)` is replaced by the new upload and the
handler ends with `start`, which resets the context to the top-level menu. -/
def receive_user_file (ctx : Ctx) (userId : Nat) (files : List (Nat × String)) :
    SubmitResult :=
  match ctx.file_submission_category with
  | none =>
    ⟨"An error occurred, please select a category first.", ctx, files⟩
  | some category =>
    ⟨"Your file has been successfully submitted!", start_ctx ctx,
     (userId, category) :: files.filter (fun p => p ≠ (userId, category))⟩

/-- Counterexample for C7 as stated: the submission-file receiver, invoked in
state `awaiting_xlsx_upload` with no selected submission category, reports the
generic error but does NOT force a return to the top-level menu — the pending
action is left as `awaiting_xlsx_upload` instead of being reset (the code just
returns without calling `start` or changing `next_action`). -/
theorem receive_user_file_counterexample :
    (receive_user_file ⟨some "awaiting_xlsx_upload", none, none⟩ 7 []).ctx
      = ⟨some "awaiting_xlsx_upload", none, none⟩
    ∧ (receive_user_file ⟨some "awaiting_xlsx_upload", none, none⟩ 7 []).ctx.next_action
      ≠ none := by decide

/-- C7 (amended): a handler that finds its prior-flow selection absent reports
a generic recoverable error and never persists or corrupts anything, but the
two handlers differ on navigation: `give_number` missing its main-category
selection resets the user to the top-level menu (pending action cleared via
`start`) with the store untouched, while `receive_user_file` missing its
submission category only replies with the error and leaves the pending state
and the stored files exactly as they were (no return to the top menu). -/
theorem missing_context_spec (ctx : Ctx) (subButton : String) (t : Nat)
    (file : ReadResult) (st : NumberState) (userId : Nat)
    (files : List (Nat × String)) :
    (ctx.main_button_context = none →
      give_number ctx subButton t file st = ⟨.missingContext, ⟨none, none, none⟩, st, false⟩)
    ∧ (ctx.file_submission_category = none →
      receive_user_file ctx userId files
        = ⟨"An error occurred, please select a category first.", ctx, files⟩) := by
  constructor
  · intro hm; simp [give_number, hm, start_ctx]
  · intro hf; simp [receive_user_file, hf]

/-- Witness for C7 (amended): concrete contexts with the selections absent. -/
theorem missing_context_spec_witness :
    give_number ⟨some "awaiting_number_category", none, none⟩ "S" 40 (.ok ["111"]) ⟨0, []⟩
      = ⟨.missingContext, ⟨none, none, none⟩, ⟨0, []⟩, false⟩
    ∧ receive_user_file ⟨some "awaiting_xlsx_upload", none, none⟩ 7 [(3, "Netflix")]
      = ⟨"An error occurred, please select a category first.",
         ⟨some "awaiting_xlsx_upload", none, none⟩, [(3, "Netflix")]⟩ :=
  ⟨(missing_context_spec ⟨some "awaiting_number_category", none, none⟩ "S" 40
      (.ok ["111"]) ⟨0, []⟩ 7 [(3, "Netflix")]).1 rfl,
   (missing_context_spec ⟨some "awaiting_xlsx_upload", none, none⟩ "S" 40
      (.ok ["111"]) ⟨0, []⟩ 7 [(3, "Netflix")]).2 rfl⟩
